import Mathlib

/-!
Verification of the CupaX analysis agent (`src/agent/agent.py`).

The agent's core is shallowly embedded here:

* `parse_csv_timeline` — `NoribenParser.parse_csv_timeline` (agent.py 115-203);
* `parse_txt_report` — `NoribenParser.parse_txt_report` (agent.py 56-113);
* `extract_with_7z` / `extract_with_unzip` / `extract_with_python` —
  `MalwareAnalyzer._extract_with_7z` / `_extract_with_unzip` /
  `_extract_with_python` (agent.py 252-364);
* `extract_zip_select` — the executable-selection stage of
  `MalwareAnalyzer.extract_zip` (agent.py 233-246);
* `run_noriben` — `MalwareAnalyzer.run_noriben` (agent.py 366-467);
* `cleanup` — the `DELETE /cleanup/<analysis_id>` handler (agent.py 603-614).

External effects (the filesystem, the spawned subprocess, the CSV reader,
`shutil.rmtree`, `os.remove`) are modelled by explicit environment/oracle
parameters: every branch the Python code can take corresponds to a value of
the environment, and the Lean function computes the branch the code takes
there.
-/

/- ---------------------------------------------------------------------------
Section A: timeline parsing (`NoribenParser.parse_csv_timeline`).

The CSV reader's output is modelled as a `List (Option (List String))`: a
`some row` is a row the reader delivered (already split into fields), a
`none` is an iteration step on which the reader raised (for example
`csv.Error` when a field exceeds the field size limit).  The Python `for`
loop then terminates by exception, and the surrounding `except` block
returns the event lists accumulated so far.
--------------------------------------------------------------------------- -/

structure ProcessEvent where
  timestamp : String
  process_name : String
  pid : String
  command_line : String
  child_pid : String
deriving DecidableEq

structure FileEvent where
  timestamp : String
  operation : String
  process_name : String
  pid : String
  path : String
  hash_type : Option String
  hash : Option String
  yara_hits : Option String
  vt_hits : Option String
  to_path : Option String
deriving DecidableEq

structure RegistryEvent where
  timestamp : String
  operation : String
  process_name : String
  pid : String
  path : String
  data : String
deriving DecidableEq

structure NetworkEvent where
  timestamp : String
  protocol : String
  direction : String
  process_name : String
  pid : String
  remote_addr : String
deriving DecidableEq

structure Events where
  process_activity : List ProcessEvent
  file_system : List FileEvent
  registry : List RegistryEvent
  network : List NetworkEvent
deriving DecidableEq

def emptyEvents : Events := ⟨[], [], [], []⟩

/-- Python `operation.split(' ', 1)` when `' ' in operation`: the text before
the first space and the text after it (`none` when there is no space). -/
def breakAtSpace : List Char → Option (List Char × List Char)
  | [] => none
  | ' ' :: rest => some ([], rest)
  | c :: rest => (breakAtSpace rest).map (fun p => (c :: p.1, p.2))

/-- The `category == "Process"` branch of the loop body (agent.py 138-145):
`row[k] if len(row) > k else ""` is `row.getD k ""`. -/
def mkProcessEvent (row : List String) : ProcessEvent :=
  { timestamp := row.getD 0 ""
    process_name := row.getD 3 ""
    pid := row.getD 4 ""
    command_line := row.getD 5 ""
    child_pid := row.getD 6 "" }

/-- The `category == "File"` branch (agent.py 147-168).  The optional fields
are set only when the row is long enough; `row[k] if row[k] else ""` maps an
empty field to `""` and any other field to itself.  `to_path` is set exactly
when the operation is `"RenameFile"` and the row has more than 6 columns. -/
def mkFileEvent (row : List String) : FileEvent :=
  { timestamp := row.getD 0 ""
    operation := row.getD 2 ""
    process_name := row.getD 3 ""
    pid := row.getD 4 ""
    path := row.getD 5 ""
    hash_type := if 6 < row.length then
        some (if row.getD 6 "" = "" then "" else row.getD 6 "") else none
    hash := if 7 < row.length then
        some (if row.getD 7 "" = "" then "" else row.getD 7 "") else none
    yara_hits := if 8 < row.length then
        some (if row.getD 8 "" = "" then "" else row.getD 8 "") else none
    vt_hits := if 9 < row.length then
        some (if row.getD 9 "" = "" then "" else row.getD 9 "") else none
    to_path := if row.getD 2 "" = "RenameFile" ∧ 6 < row.length then
        some (row.getD 6 "") else none }

/-- The `category == "Registry"` branch (agent.py 170-179). -/
def mkRegistryEvent (row : List String) : RegistryEvent :=
  { timestamp := row.getD 0 ""
    operation := row.getD 2 ""
    process_name := row.getD 3 ""
    pid := row.getD 4 ""
    path := row.getD 5 ""
    data := row.getD 6 "" }

/-- The `category == "Network"` branch (agent.py 181-197): the combined
operation field is split at the first space into protocol and direction;
without a space the direction defaults to `"Unknown"`. -/
def mkNetworkEvent (row : List String) : NetworkEvent :=
  let operation := row.getD 2 ""
  let pd := match breakAtSpace operation.data with
    | some p => (String.mk p.1, String.mk p.2)
    | none => (operation, "Unknown")
  { timestamp := row.getD 0 ""
    protocol := pd.1
    direction := pd.2
    process_name := row.getD 3 ""
    pid := row.getD 4 ""
    remote_addr := row.getD 5 "" }

/-- One iteration of the loop body (agent.py 130-197): rows with fewer than 3
fields are skipped, otherwise the row's event is placed in front of the
events of the remaining rows (the Python loop appends going forward; the
recursion here prepends coming backward — same order). -/
def consRow (row : List String) (e : Events) : Events :=
  if row.length < 3 then e
  else if row.getD 1 "" = "Process" then
    { e with process_activity := mkProcessEvent row :: e.process_activity }
  else if row.getD 1 "" = "File" then
    { e with file_system := mkFileEvent row :: e.file_system }
  else if row.getD 1 "" = "Registry" then
    { e with registry := mkRegistryEvent row :: e.registry }
  else if row.getD 1 "" = "Network" then
    { e with network := mkNetworkEvent row :: e.network }
  else e

/-- `NoribenParser.parse_csv_timeline` (agent.py 115-203).  A `none` item is
an iteration on which the CSV reader raised: the exception ends the loop and
the `except` handler returns the events accumulated up to that point, so
every row after the `none` is lost. -/
def parse_csv_timeline : List (Option (List String)) → Events
  | [] => emptyEvents
  | none :: _ => emptyEvents
  | some row :: rest => consRow row (parse_csv_timeline rest)

/-- Row-level view of the Process case: the event the row contributes, when
it contributes one. -/
def procEventOf (row : List String) : Option ProcessEvent :=
  if 3 ≤ row.length ∧ row.getD 1 "" = "Process" then some (mkProcessEvent row)
  else none

/-- Row-level view of the File case. -/
def fileEventOf (row : List String) : Option FileEvent :=
  if 3 ≤ row.length ∧ row.getD 1 "" = "File" then some (mkFileEvent row)
  else none

/-- Row-level view of the Registry case. -/
def regEventOf (row : List String) : Option RegistryEvent :=
  if 3 ≤ row.length ∧ row.getD 1 "" = "Registry" then some (mkRegistryEvent row)
  else none

/-- Row-level view of the Network case. -/
def netEventOf (row : List String) : Option NetworkEvent :=
  if 3 ≤ row.length ∧ row.getD 1 "" = "Network" then some (mkNetworkEvent row)
  else none

/- ---------------------------------------------------------------------------
Section B: summary-report parsing (`NoribenParser.parse_txt_report`).

The report text is a `List Char`.  The two regular expressions of the code,
`LABEL ([\d.]+) seconds` and `HEADING:\n={15,}\n(.*?)(?:\n\n|\Z)` (DOTALL),
are implemented directly.  In both, greedy maximal-munch of the character
class is equivalent to the backtracking semantics: the character after the
class run that the pattern requires (`' '` of " seconds", `'\n'` after the
`=` run) is itself outside the class, so no shorter split can ever succeed.
Python `float` on a digits-and-dots string is modelled exactly over `ℚ`
(every value the claims mention, such as 12.5, is an exact binary float, so
the rational model agrees with IEEE doubles there); a string `float` rejects
(no digit, or more than one dot) raises, which the outer `except` turns into
the empty-summary result, modelled as `none`.
--------------------------------------------------------------------------- -/

def isDigitDot (c : Char) : Bool := c.isDigit || c = '.'

def digitsToNat (l : List Char) : Nat :=
  l.foldl (fun a c => a * 10 + (c.toNat - 48)) 0

/-- Python `float` restricted to what `[\d.]+` can capture: at least one
digit, at most one dot; otherwise `float` raises (modelled as `none`). -/
def pyFloat (s : List Char) : Option ℚ :=
  if s.all isDigitDot && s.any Char.isDigit
      && decide ((s.filter (fun c => c = '.')).length ≤ 1) then
    let intPart := s.takeWhile (fun c => c ≠ '.')
    let fracPart := (s.dropWhile (fun c => c ≠ '.')).drop 1
    some ((digitsToNat intPart : ℚ) + (digitsToNat fracPart : ℚ) / 10 ^ fracPart.length)
  else none

/-- Match `([\d.]+) seconds` at the start of `s`, returning the captured
run. -/
def numThenSeconds (s : List Char) : Option (List Char) :=
  let run := s.takeWhile isDigitDot
  let rest := s.dropWhile isDigitDot
  if run.isEmpty then none
  else if " seconds".toList.isPrefixOf rest then some run else none

/-- `re.search` for `LABEL([\d.]+) seconds`: leftmost start position at which
the whole pattern matches wins. -/
def searchLabeledNum (label : List Char) : List Char → Option (List Char)
  | [] => none
  | c :: rest =>
    if label.isPrefixOf (c :: rest) then
      match numThenSeconds ((c :: rest).drop label.length) with
      | some run => some run
      | none => searchLabeledNum label rest
    else searchLabeledNum label rest

/-- The lazy group `(.*?)(?:\n\n|\Z)` under DOTALL: everything up to the
first `"\n\n"`, or to the end of the text when there is none. -/
def lazyBody : List Char → List Char
  | [] => []
  | '\n' :: '\n' :: _ => []
  | c :: rest => c :: lazyBody rest

/-- Match `={15,}\n` then the lazy body at the start of `s`. -/
def eqRunThenBody (s : List Char) : Option (List Char) :=
  let eqs := s.takeWhile (fun c => c = '=')
  let rest := s.dropWhile (fun c => c = '=')
  if 15 ≤ eqs.length then
    match rest with
    | '\n' :: body => some (lazyBody body)
    | _ => none
  else none

/-- `re.search` for `HEADING\n={15,}\n(.*?)(?:\n\n|\Z)`; `heading` includes
the trailing `'\n'` of the pattern. -/
def searchSection (heading : List Char) : List Char → Option (List Char)
  | [] => none
  | c :: rest =>
    if heading.isPrefixOf (c :: rest) then
      match eqRunThenBody ((c :: rest).drop heading.length) with
      | some body => some body
      | none => searchSection heading rest
    else searchSection heading rest

/-- Python `str.split('\n')`. -/
def splitLines : List Char → List (List Char)
  | [] => [[]]
  | '\n' :: rest => [] :: splitLines rest
  | c :: rest =>
    match splitLines rest with
    | [] => [[c]]
    | l :: ls => (c :: l) :: ls

/-- Python `str.strip()`. -/
def stripChars (l : List Char) : List Char :=
  ((l.dropWhile Char.isWhitespace).reverse.dropWhile Char.isWhitespace).reverse

/-- `len([l for l in body.split('\n') if l.strip()])`. -/
def countNonBlankLines (body : List Char) : Nat :=
  ((splitLines body).filter (fun l => stripChars l ≠ [])).length

/-- The count a section heading contributes: 0 when the section regex does
not match (the summary keeps its default), otherwise the number of non-blank
lines of the captured body. -/
def sectionCount (heading : List Char) (content : List Char) : Nat :=
  match searchSection heading content with
  | none => 0
  | some body => countNonBlankLines body

/-- One timing field: the default `some 0` when the label pattern is absent,
the parsed value when present, `none` when `float` raises. -/
def timeField (label : List Char) (content : List Char) : Option ℚ :=
  match searchLabeledNum label content with
  | none => some 0
  | some run => pyFloat run

def execLabel : List Char := "Execution time: ".toList
def procTimeLabel : List Char := "Processing time: ".toList
def analTimeLabel : List Char := "Analysis time: ".toList
def processesHeading : List Char := "Processes Created:\n".toList
def fileActHeading : List Char := "File Activity:\n".toList
def regActHeading : List Char := "Registry Activity:\n".toList
def netHeading : List Char := "Network Traffic:\n".toList
def hostsHeading : List Char := "Unique Hosts:\n".toList

structure TxtSummary where
  execution_time : ℚ
  processing_time : ℚ
  analysis_time : ℚ
  processes_created : Nat
  files_created : Nat
  registry_modified : Nat
  network_connections : Nat
deriving DecidableEq

/-- `[h.strip() for h in hosts_section.group(1).split('\n') if h.strip()]`,
and `[]` when the Unique Hosts section is absent. -/
def hostsList (content : List Char) : List (List Char) :=
  match searchSection hostsHeading content with
  | none => []
  | some body =>
    (splitLines body).filterMap (fun l =>
      if stripChars l = [] then none else some (stripChars l))

/-- `NoribenParser.parse_txt_report` (agent.py 56-113) on the file's text.
`none` is the `except` branch (a `float` call raised), where the code
returns an empty summary dictionary. -/
def parse_txt_report (content : List Char) : Option (TxtSummary × List (List Char)) :=
  match timeField execLabel content, timeField procTimeLabel content,
      timeField analTimeLabel content with
  | some e, some p, some a =>
    some ({ execution_time := e
            processing_time := p
            analysis_time := a
            processes_created := sectionCount processesHeading content
            files_created := sectionCount fileActHeading content
            registry_modified := sectionCount regActHeading content
            network_connections := sectionCount netHeading content },
          hostsList content)
  | _, _, _ => none

/-- The representative summary text of the round-trip claim: the execution
time line, the Processes Created heading, a 15-`=` rule and three non-blank
lines. -/
def c7Content : List Char :=
  "Execution time: 12.5 seconds\nProcesses Created:\n===============\np1\np2\np3\n\n".toList

/- ---------------------------------------------------------------------------
Section C: archive-extraction backends (`MalwareAnalyzer._extract_with_7z`,
`_extract_with_unzip`, `_extract_with_python`, agent.py 252-364).

One extraction attempt is decided by an oracle `Option String → ARes`: the
argument is the password the attempt uses (`none` when none is supplied:
`-p` with an empty password for 7z, no `-P` flag for unzip, no `pwd`
argument for `zipfile`), the result is

* `ok`   — the attempt succeeds (exit code 0 / `extractall` returns);
* `fail` — the ordinary failure that triggers the common-password fallback
           (nonzero exit code for 7z and unzip, `RuntimeError` for
           `zipfile`);
* `exc`  — any other exception (`subprocess.TimeoutExpired` when the
           30-time-unit bound is exceeded, OSError, a non-`RuntimeError`
           from `extractall`, ...), which the enclosing `except` turns into
           an immediate `False` of the whole backend.

Each attempt is recorded as an `Invocation` carrying the password used and
the wall-clock bound passed to `subprocess.run` (`some 30` for the two
external tools; `none` for the in-process `zipfile` backend, whose
`extractall` call carries no timeout at all).  The literal 30 appears as
`timeout=30` in the code and does not depend on `ANALYSIS_TIMEOUT`.
--------------------------------------------------------------------------- -/

inductive ARes
  | ok
  | fail
  | exc
deriving DecidableEq

def ARes.isOk : ARes → Bool
  | .ok => true
  | _ => false

structure Invocation where
  password : Option String
  timeoutSec : Option Nat
deriving DecidableEq

/-- `common_passwords = ['infected', 'malware', 'virus', 'password']`
(agent.py 279, 318, 350 — the same literal in all three backends). -/
def common_passwords : List String := ["infected", "malware", "virus", "password"]

/-- The `for pwd in common_passwords` loop of `_extract_with_7z`
(agent.py 279-285): success returns immediately, a nonzero exit moves to the
next password, an exception propagates to the enclosing `except` which
returns `False`. -/
def sevenZipLoop (oracle : Option String → ARes) : List String → Bool × List Invocation
  | [] => (false, [])
  | p :: rest =>
    match oracle (some p) with
    | .ok => (true, [⟨some p, some 30⟩])
    | .exc => (false, [⟨some p, some 30⟩])
    | .fail =>
      let r := sevenZipLoop oracle rest
      (r.1, ⟨some p, some 30⟩ :: r.2)

/-- `MalwareAnalyzer._extract_with_7z` (agent.py 252-292): with a supplied
password only that password is attempted; otherwise an empty-password
attempt (`-p`) first, then the common-password loop on ordinary failure. -/
def extract_with_7z (oracle : Option String → ARes) (password : Option String) :
    Bool × List Invocation :=
  match password with
  | some p =>
    match oracle (some p) with
    | .ok => (true, [⟨some p, some 30⟩])
    | _ => (false, [⟨some p, some 30⟩])
  | none =>
    match oracle none with
    | .ok => (true, [⟨none, some 30⟩])
    | .exc => (false, [⟨none, some 30⟩])
    | .fail =>
      let r := sevenZipLoop oracle common_passwords
      (r.1, ⟨none, some 30⟩ :: r.2)

/-- The `for pwd in common_passwords` loop of `_extract_with_unzip`
(agent.py 318-324). -/
def unzipLoop (oracle : Option String → ARes) : List String → Bool × List Invocation
  | [] => (false, [])
  | p :: rest =>
    match oracle (some p) with
    | .ok => (true, [⟨some p, some 30⟩])
    | .exc => (false, [⟨some p, some 30⟩])
    | .fail =>
      let r := unzipLoop oracle rest
      (r.1, ⟨some p, some 30⟩ :: r.2)

/-- `MalwareAnalyzer._extract_with_unzip` (agent.py 294-331): same control
flow as the 7z backend (`-P password` when supplied, no password flag on the
first attempt otherwise). -/
def extract_with_unzip (oracle : Option String → ARes) (password : Option String) :
    Bool × List Invocation :=
  match password with
  | some p =>
    match oracle (some p) with
    | .ok => (true, [⟨some p, some 30⟩])
    | _ => (false, [⟨some p, some 30⟩])
  | none =>
    match oracle none with
    | .ok => (true, [⟨none, some 30⟩])
    | .exc => (false, [⟨none, some 30⟩])
    | .fail =>
      let r := unzipLoop oracle common_passwords
      (r.1, ⟨none, some 30⟩ :: r.2)

/-- The `for pwd in common_passwords` loop of `_extract_with_python`
(agent.py 350-357): `RuntimeError` (`fail`) hits the inner `except` and
continues; any other exception propagates to the outer `except`. -/
def pythonLoop (oracle : Option String → ARes) : List String → Bool × List Invocation
  | [] => (false, [])
  | p :: rest =>
    match oracle (some p) with
    | .ok => (true, [⟨some p, none⟩])
    | .exc => (false, [⟨some p, none⟩])
    | .fail =>
      let r := pythonLoop oracle rest
      (r.1, ⟨some p, none⟩ :: r.2)

/-- `MalwareAnalyzer._extract_with_python` (agent.py 333-364): `openOk` is
whether `zipfile.ZipFile(zip_path)` itself succeeds (a bad archive raises
before any attempt is made).  The `extractall` calls carry no timeout. -/
def extract_with_python (oracle : Option String → ARes) (openOk : Bool)
    (password : Option String) : Bool × List Invocation :=
  if openOk = false then (false, [])
  else
    match password with
    | some p =>
      match oracle (some p) with
      | .ok => (true, [⟨some p, none⟩])
      | _ => (false, [⟨some p, none⟩])
    | none =>
      match oracle none with
      | .ok => (true, [⟨none, none⟩])
      | .exc => (false, [⟨none, none⟩])
      | .fail =>
        let r := pythonLoop oracle common_passwords
        (r.1, ⟨none, none⟩ :: r.2)

/-- Modelled from the spec: the password policy of §4.1 — a supplied
password is the only attempt; otherwise no password first, then the fixed
common-password list in order, stopping at the first success.  `spec_fallback`
is the fallback stage; `succeeds` says which attempts succeed. -/
def spec_fallback (succeeds : Option String → Bool) : List String → Bool × List (Option String)
  | [] => (false, [])
  | p :: rest =>
    if succeeds (some p) then (true, [some p])
    else
      let r := spec_fallback succeeds rest
      (r.1, some p :: r.2)

/-- Modelled from the spec: the whole password policy (see `spec_fallback`). -/
def spec_password_policy (succeeds : Option String → Bool) (password : Option String) :
    Bool × List (Option String) :=
  match password with
  | some p => (succeeds (some p), [some p])
  | none =>
    if succeeds none then (true, [none])
    else
      let r := spec_fallback succeeds common_passwords
      (r.1, none :: r.2)

/- ---------------------------------------------------------------------------
Section D: executable selection inside `MalwareAnalyzer.extract_zip`
(agent.py 233-246).

The extraction directory's contents are a `List Entry` in filesystem
enumeration order; `dirs` is the relative directory path of the entry
(empty for a top-level file).  For each pattern `*.{ext}` the code first
takes `extract_dir.glob('*.{ext}')` (top-level matches) and then
`extract_dir.glob('**/*.{ext}')` (matches at any depth), and finally returns
the first element of the concatenation.  `glob` order within one pattern is
the enumeration order of the listing.  Both failure branches of
`extract_zip` return `None` to the HTTP layer; they are distinguished here
(as in the code's log messages) as `extractionFailed` ("Failed to extract
zip file") versus `noExecutable` ("No executable found in zip").
--------------------------------------------------------------------------- -/

structure Entry where
  dirs : List String
  name : String
deriving DecidableEq

/-- The pattern list `['*.exe', '*.dll', '*.scr', '*.bat', '*.cmd', '*.ps1']`
(agent.py 235), kept as the suffix each pattern requires. -/
def extractExtensions : List String := [".exe", ".dll", ".scr", ".bat", ".cmd", ".ps1"]

def strEndsWith (s suf : String) : Bool := suf.data.isSuffixOf s.data

/-- `extract_dir.glob('*.{ext}')`: top-level entries whose name matches. -/
def globTopLevel (listing : List Entry) (ext : String) : List Entry :=
  listing.filter (fun e => e.dirs.isEmpty && strEndsWith e.name ext)

/-- `extract_dir.glob('**/*.{ext}')`: entries at any depth whose name
matches. -/
def globRecursive (listing : List Entry) (ext : String) : List Entry :=
  listing.filter (fun e => strEndsWith e.name ext)

/-- The `executables` list after the `for ext in [...]` loop
(agent.py 234-237). -/
def findExecutables (listing : List Entry) : List Entry :=
  (extractExtensions.map (fun ext => globTopLevel listing ext ++ globRecursive listing ext)).flatten

inductive ExtractOutcome
  | found (e : Entry)
  | noExecutable
  | extractionFailed
deriving DecidableEq

/-- `extract_zip` after the backend ran (agent.py 229-246):
`extractSucceeded` is the backend's boolean result. -/
def extract_zip_select (extractSucceeded : Bool) (listing : List Entry) : ExtractOutcome :=
  if extractSucceeded = false then .extractionFailed
  else
    match findExecutables listing with
    | [] => .noExecutable
    | e :: _ => .found e

/-- Index of the first extension of `l` that `name` matches. -/
def firstMatchIdx (name : String) : List String → Option Nat
  | [] => none
  | ext :: rest =>
    if strEndsWith name ext then some 0
    else (firstMatchIdx name rest).map (· + 1)

/-- Priority rank of a file name in the fixed extension order (0 is the
highest priority, `.exe`). -/
def priorityIdx (name : String) : Option Nat := firstMatchIdx name extractExtensions

/-- `UNZIP_TOOL` configuration: which backend `extract_zip` delegates to
(agent.py 222-227); any value other than `"7z"` and `"unzip"` falls back to
the in-process backend. -/
inductive UnzipTool
  | sevenZ
  | unzipTool
  | pythonTool
deriving DecidableEq

/-- `MalwareAnalyzer.extract_zip` (agent.py 213-250) end to end: backend
choice by configuration, then executable selection on success. -/
def extract_zip (tool : UnzipTool) (oracle : Option String → ARes) (openOk : Bool)
    (password : Option String) (listing : List Entry) : ExtractOutcome :=
  let ok := match tool with
    | .sevenZ => (extract_with_7z oracle password).1
    | .unzipTool => (extract_with_unzip oracle password).1
    | .pythonTool => (extract_with_python oracle openOk password).1
  extract_zip_select ok listing

/- ---------------------------------------------------------------------------
Section E: the supervised run (`MalwareAnalyzer.run_noriben`,
agent.py 366-467).

The run is a `try/except/finally`: the `try` body picks the primary outcome
(missing sample, timeout, other exception, nonzero exit, parse failure, or
success), and the `finally` block then removes the sample file and the
`{analysis_id}_extracted` directory, each inside its own `try/except` whose
failure is only logged.  `RunEnv` supplies every external effect: how the
spawned subprocess behaves (as a function of the exact command record the
code builds, so the timeout actually passed is visible), what
`parse_results` yields, and whether each of the two cleanup removals
raises.  `FsState` tracks the two files cleanup is about.
--------------------------------------------------------------------------- -/

structure AgentConfig where
  analysisTimeout : Nat
  workDir : String
deriving DecidableEq

/-- The subprocess invocation the code builds (agent.py 388-410): the
`--timeout` argument handed to the tool is `ANALYSIS_TIMEOUT`, while the
`timeout=` bound handed to `subprocess.run` is `ANALYSIS_TIMEOUT + 60`. -/
structure NoribenCmd where
  samplePath : String
  toolTimeoutArg : Nat
  headless : Bool
  outputDir : String
  subprocessTimeout : Nat
deriving DecidableEq

inductive ProcResult
  | completed (returncode : Int) (stdout stderr : String)
  | timedOut
  | raised (msg : String)
deriving DecidableEq

inductive RunOutcome (ρ : Type)
  | ok (report : ρ)
  | err (msg : String)
deriving DecidableEq

structure RunEnv (ρ : Type) where
  runProc : NoribenCmd → ProcResult
  parseOutput : Option ρ
  removeSampleFails : Bool
  rmExtractFails : Bool

structure FsState where
  sampleExists : Bool
  extractDirExists : Bool
deriving DecidableEq

/-- `self.work_dir / analysis_id` (agent.py 372). -/
def output_dir_path (cfg : AgentConfig) (analysisId : String) : String :=
  cfg.workDir ++ "/" ++ analysisId

/-- The command record of agent.py 388-410 (paths are taken absolute by the
code; the model keeps them as given). -/
def noriben_cmd (cfg : AgentConfig) (samplePath outputDir : String) : NoribenCmd :=
  { samplePath := samplePath
    toolTimeoutArg := cfg.analysisTimeout
    headless := true
    outputDir := outputDir
    subprocessTimeout := cfg.analysisTimeout + 60 }

/-- The `try` body of `run_noriben` (agent.py 368-450): the primary outcome
before cleanup. -/
def run_noriben_body (ρ : Type) (cfg : AgentConfig) (st : FsState)
    (runProc : NoribenCmd → ProcResult) (parseOutput : Option ρ)
    (samplePath analysisId : String) : RunOutcome ρ :=
  if st.sampleExists = false then
    .err ("Sample file not found: " ++ samplePath)
  else
    match runProc (noriben_cmd cfg samplePath (output_dir_path cfg analysisId)) with
    | .timedOut => .err "Analysis timeout"
    | .raised m => .err m
    | .completed rc _ stderrText =>
      if rc ≠ 0 then
        .err ("Noriben execution failed (code " ++ toString rc ++ "): " ++ stderrText)
      else
        match parseOutput with
        | none => .err "Failed to parse Noriben output"
        | some r => .ok r

/-- The `finally` block (agent.py 451-467): remove the sample if it exists,
remove `{analysis_id}_extracted` if it exists; a removal that raises leaves
the file in place and is only logged. -/
def run_cleanup (ρ : Type) (env : RunEnv ρ) (st : FsState) : FsState :=
  { sampleExists := st.sampleExists && env.removeSampleFails
    extractDirExists := st.extractDirExists && env.rmExtractFails }

/-- `MalwareAnalyzer.run_noriben` (agent.py 366-467): the primary outcome of
the `try` body, with the `finally` cleanup applied to the filesystem state
on every path. -/
def run_noriben (ρ : Type) (cfg : AgentConfig) (st : FsState) (env : RunEnv ρ)
    (samplePath analysisId : String) : RunOutcome ρ × FsState :=
  (run_noriben_body ρ cfg st env.runProc env.parseOutput samplePath analysisId,
   run_cleanup ρ env st)

/- ---------------------------------------------------------------------------
Section F: the cleanup endpoint (`DELETE /cleanup/<analysis_id>`,
agent.py 603-614).

The on-disk state is the list of existing per-analysis output directories,
keyed by analysis id; `rmtreeFails` is whether `shutil.rmtree` raises, in
which case the `except` handler returns `success=False` with the error.
--------------------------------------------------------------------------- -/

structure CleanupEnv where
  rmtreeFails : Bool
deriving DecidableEq

/-- The HTTP response body: success flag and optional error string. -/
structure CleanupResponse where
  success : Bool
  error : Option String
deriving DecidableEq

/-- The `cleanup` route handler (agent.py 603-614): remove the output
directory when present; absence is success; an `rmtree` failure is caught
and reported as `success=False`. -/
def cleanup (env : CleanupEnv) (dirs : List String) (analysisId : String) :
    CleanupResponse × List String :=
  if analysisId ∈ dirs then
    if env.rmtreeFails then
      ({ success := false, error := some "rmtree failed" }, dirs)
    else
      ({ success := true, error := none }, dirs.filter (fun d => d ≠ analysisId))
  else
    ({ success := true, error := none }, dirs)

/- ---------------------------------------------------------------------------
Theorems.  Helper lemmas come first; each claim then gets exactly one
theorem (witnesses and counterexamples follow their claim's theorem).
--------------------------------------------------------------------------- -/

example :
    parse_csv_timeline [some ["2024-01-01T00:00:00", "File", "CreateFile",
      "notepad.exe", "1234", "C:\\temp\\a.txt"]] =
    { emptyEvents with file_system := [⟨"2024-01-01T00:00:00", "CreateFile",
      "notepad.exe", "1234", "C:\\temp\\a.txt", none, none, none, none, none⟩] } := by
  decide

example :
    extract_with_7z (fun t => if t = some "virus" then ARes.ok else ARes.fail) none =
      (true, [⟨none, some 30⟩, ⟨some "infected", some 30⟩, ⟨some "malware", some 30⟩,
              ⟨some "virus", some 30⟩]) := by decide

example :
    extract_zip_select true [⟨["sub"], "b.dll"⟩, ⟨[], "a.exe"⟩, ⟨[], "c.txt"⟩] =
      ExtractOutcome.found ⟨[], "a.exe"⟩ := by decide

example :
    (cleanup ⟨false⟩ ["a", "b"] "a").2 = ["b"] := by decide

/-- The loop is row-local on an error-free input: each category's list is
the in-order `filterMap` of the per-row event function. -/
theorem parse_csv_timeline_map_some (rows : List (List String)) :
    parse_csv_timeline (rows.map some) =
      ⟨rows.filterMap procEventOf, rows.filterMap fileEventOf,
       rows.filterMap regEventOf, rows.filterMap netEventOf⟩ := by
  induction rows with
  | nil => rfl
  | cons row rest ih =>
    simp only [List.map_cons, parse_csv_timeline, ih, List.filterMap_cons]
    unfold consRow procEventOf fileEventOf regEventOf netEventOf
    by_cases h3 : row.length < 3
    · have hn3 : ¬ 3 ≤ row.length := by omega
      have nP : ¬ (3 ≤ row.length ∧ row.getD 1 "" = "Process") := fun h => hn3 h.1
      have nF : ¬ (3 ≤ row.length ∧ row.getD 1 "" = "File") := fun h => hn3 h.1
      have nR : ¬ (3 ≤ row.length ∧ row.getD 1 "" = "Registry") := fun h => hn3 h.1
      have nN : ¬ (3 ≤ row.length ∧ row.getD 1 "" = "Network") := fun h => hn3 h.1
      rw [if_pos h3, if_neg nP, if_neg nF, if_neg nR, if_neg nN]
    · have h3' : 3 ≤ row.length := by omega
      rw [if_neg h3]
      by_cases hp : row.getD 1 "" = "Process"
      · have yP : 3 ≤ row.length ∧ row.getD 1 "" = "Process" := ⟨h3', hp⟩
        have nF : ¬ (3 ≤ row.length ∧ row.getD 1 "" = "File") := fun h => by
          rw [hp] at h
          exact absurd h.2 (by decide)
        have nR : ¬ (3 ≤ row.length ∧ row.getD 1 "" = "Registry") := fun h => by
          rw [hp] at h
          exact absurd h.2 (by decide)
        have nN : ¬ (3 ≤ row.length ∧ row.getD 1 "" = "Network") := fun h => by
          rw [hp] at h
          exact absurd h.2 (by decide)
        rw [if_pos hp, if_pos yP, if_neg nF, if_neg nR, if_neg nN]
      · have nP : ¬ (3 ≤ row.length ∧ row.getD 1 "" = "Process") := fun h => hp h.2
        rw [if_neg hp, if_neg nP]
        by_cases hf : row.getD 1 "" = "File"
        · have yF : 3 ≤ row.length ∧ row.getD 1 "" = "File" := ⟨h3', hf⟩
          have nR : ¬ (3 ≤ row.length ∧ row.getD 1 "" = "Registry") := fun h => by
            rw [hf] at h
            exact absurd h.2 (by decide)
          have nN : ¬ (3 ≤ row.length ∧ row.getD 1 "" = "Network") := fun h => by
            rw [hf] at h
            exact absurd h.2 (by decide)
          rw [if_pos hf, if_pos yF, if_neg nR, if_neg nN]
        · have nF : ¬ (3 ≤ row.length ∧ row.getD 1 "" = "File") := fun h => hf h.2
          rw [if_neg hf, if_neg nF]
          by_cases hr : row.getD 1 "" = "Registry"
          · have yR : 3 ≤ row.length ∧ row.getD 1 "" = "Registry" := ⟨h3', hr⟩
            have nN : ¬ (3 ≤ row.length ∧ row.getD 1 "" = "Network") := fun h => by
              rw [hr] at h
              exact absurd h.2 (by decide)
            rw [if_pos hr, if_pos yR, if_neg nN]
          · have nR : ¬ (3 ≤ row.length ∧ row.getD 1 "" = "Registry") := fun h => hr h.2
            rw [if_neg hr, if_neg nR]
            by_cases hn : row.getD 1 "" = "Network"
            · have yN : 3 ≤ row.length ∧ row.getD 1 "" = "Network" := ⟨h3', hn⟩
              rw [if_pos hn, if_pos yN]
            · have nN : ¬ (3 ≤ row.length ∧ row.getD 1 "" = "Network") := fun h => hn h.2
              rw [if_neg hn, if_neg nN]

/-- Dropping the under-3-field rows from the input does not change the
parse: such rows are skipped. -/
theorem parse_csv_timeline_filter_short (rows : List (List String)) :
    parse_csv_timeline ((rows.filter (fun r => decide (3 ≤ r.length))).map some) =
      parse_csv_timeline (rows.map some) := by
  induction rows with
  | nil => rfl
  | cons row rest ih =>
    by_cases h : 3 ≤ row.length
    · rw [List.filter_cons, if_pos (by simpa using h)]
      simp only [List.map_cons, parse_csv_timeline, ih]
    · have hlt : row.length < 3 := by omega
      rw [List.filter_cons, if_neg (by simpa using h), ih]
      simp only [List.map_cons, parse_csv_timeline]
      unfold consRow
      rw [if_pos hlt]

/-- C6: on any timeline whose rows the reader delivers, each typed event
list is the in-order `filterMap` of its per-row function — so source row
order is preserved, a row shorter than 3 fields contributes nothing (and
never fails the parse: the function is total), and every row with at least
3 fields whose category is recognized contributes exactly its event, with
missing trailing fields defaulted to `""` by the `mk*Event` builders.
Dropping the short rows beforehand provably does not change the result. -/
theorem c6_timeline_rowwise_order (rows : List (List String)) :
    (parse_csv_timeline (rows.map some)).process_activity = rows.filterMap procEventOf
  ∧ (parse_csv_timeline (rows.map some)).file_system = rows.filterMap fileEventOf
  ∧ (parse_csv_timeline (rows.map some)).registry = rows.filterMap regEventOf
  ∧ (parse_csv_timeline (rows.map some)).network = rows.filterMap netEventOf
  ∧ parse_csv_timeline ((rows.filter (fun r => decide (3 ≤ r.length))).map some) =
      parse_csv_timeline (rows.map some) := by
  refine ⟨?_, ?_, ?_, ?_, parse_csv_timeline_filter_short rows⟩ <;>
    rw [parse_csv_timeline_map_some]

/-- C5 counterexample: a row on which the CSV reader raises (for example a
Registry row whose field exceeds the csv field size limit) does NOT leave
the other categories fully populated — a valid Process row that follows it
is lost, although parsing it alone yields its event. -/
theorem c5_counterexample_reader_error_drops_later_rows :
    (parse_csv_timeline [none, some ["2024-01-01T00:00:00", "Process", "Start Process",
        "notepad.exe", "1234"]]).process_activity = []
  ∧ (parse_csv_timeline [some ["2024-01-01T00:00:00", "Process", "Start Process",
        "notepad.exe", "1234"]]).process_activity ≠ [] := by decide

/-- C5 (amended): the parser never aborts, and an input item on which the
CSV reader raises truncates the parse exactly there: every category keeps
precisely the events of the rows before the error (rows the reader still
delivered, of every category, remain isolated from each other), and all
rows after the error are lost for all categories alike. -/
theorem c5_amended_truncation_at_reader_error (before : List (List String))
    (after : List (Option (List String))) :
    parse_csv_timeline (before.map some ++ none :: after) =
      parse_csv_timeline (before.map some) := by
  induction before with
  | nil => rfl
  | cons r rest ih =>
    simp only [List.map_cons, List.cons_append, parse_csv_timeline]
    exact congrArg (consRow r) ih

/-- C10: for a `File` row with operation `"RenameFile"` and more than 6
columns, the parser emits exactly one file event, whose `hash_type` and
`to_path` are both column 7 of the row. -/
theorem c10_rename_hash_type_to_path_coupled (row : List String) (h6 : 6 < row.length)
    (hcat : row.getD 1 "" = "File") (hop : row.getD 2 "" = "RenameFile") :
    ∃ e : FileEvent, (parse_csv_timeline [some row]).file_system = [e] ∧
      e.hash_type = some (row.getD 6 "") ∧ e.to_path = some (row.getD 6 "") := by
  refine ⟨mkFileEvent row, ?_, ?_, ?_⟩
  · have h3 : ¬ row.length < 3 := by omega
    have nP : ¬ row.getD 1 "" = "Process" := by
      rw [hcat]
      decide
    show (consRow row (parse_csv_timeline [])).file_system = _
    unfold consRow
    rw [if_neg h3, if_neg nP, if_pos hcat]
    rfl
  · show (if 6 < row.length then
        some (if row.getD 6 "" = "" then "" else row.getD 6 "") else none) =
      some (row.getD 6 "")
    rw [if_pos h6]
    by_cases he : row.getD 6 "" = ""
    · rw [if_pos he, he]
    · rw [if_neg he]
  · have yT : row.getD 2 "" = "RenameFile" ∧ 6 < row.length := ⟨hop, h6⟩
    show (if row.getD 2 "" = "RenameFile" ∧ 6 < row.length then
        some (row.getD 6 "") else none) = some (row.getD 6 "")
    rw [if_pos yT]

/-- Witness for C10 at a concrete rename row. -/
theorem c10_witness :
    ∃ e : FileEvent, (parse_csv_timeline [some ["t", "File", "RenameFile", "p.exe", "1",
        "C:\\a", "C:\\b"]]).file_system = [e] ∧
      e.hash_type = some "C:\\b" ∧ e.to_path = some "C:\\b" :=
  c10_rename_hash_type_to_path_coupled
    ["t", "File", "RenameFile", "p.exe", "1", "C:\\a", "C:\\b"]
    (by decide) (by decide) (by decide)

/-- A successful label search means the label text occurs in the content. -/
theorem searchLabeledNum_occurs (label run : List Char) :
    ∀ content : List Char, searchLabeledNum label content = some run →
      label <:+: content := by
  intro content
  induction content with
  | nil => intro h; exact absurd h (by simp [searchLabeledNum])
  | cons c rest ih =>
    intro h
    by_cases hp : label.isPrefixOf (c :: rest)
    · exact (List.isPrefixOf_iff_prefix.mp hp).isInfix
    · rw [searchLabeledNum, if_neg hp] at h
      exact List.infix_cons (ih h)

/-- Whenever the report parse succeeds, the three timing fields are exactly
what their label searches produced. -/
theorem parse_txt_report_timeFields (content : List Char) (s : TxtSummary)
    (hosts : List (List Char)) (h : parse_txt_report content = some (s, hosts)) :
    timeField execLabel content = some s.execution_time ∧
    timeField procTimeLabel content = some s.processing_time ∧
    timeField analTimeLabel content = some s.analysis_time := by
  unfold parse_txt_report at h
  cases h1 : timeField execLabel content with
  | none => rw [h1] at h; exact absurd h (by simp)
  | some e =>
    cases h2 : timeField procTimeLabel content with
    | none => rw [h1, h2] at h; exact absurd h (by simp)
    | some p =>
      cases h3 : timeField analTimeLabel content with
      | none => rw [h1, h2, h3] at h; exact absurd h (by simp)
      | some a =>
        rw [h1, h2, h3] at h
        simp only [Option.some.injEq, Prod.mk.injEq] at h
        obtain ⟨hsum, -⟩ := h
        rw [← hsum]
        exact ⟨rfl, rfl, rfl⟩

/-- C7: the round-trip on a representative summary text — execution time
12.5 and a Processes Created section of three non-blank lines yield
`execution_time = 12.5` and `processes_created = 3` — and, on any text the
parser accepts, each timing field whose label text does not occur defaults
to 0. -/
theorem c7_summary_roundtrip_and_defaults :
    parse_txt_report c7Content = some (⟨25 / 2, 0, 0, 3, 0, 0, 0⟩, [])
  ∧ ∀ (content : List Char) (s : TxtSummary) (hosts : List (List Char)),
      parse_txt_report content = some (s, hosts) →
      (¬ execLabel <:+: content → s.execution_time = 0)
    ∧ (¬ procTimeLabel <:+: content → s.processing_time = 0)
    ∧ (¬ analTimeLabel <:+: content → s.analysis_time = 0) := by
  constructor
  · have h1 : searchLabeledNum execLabel c7Content = some ['1', '2', '.', '5'] := by decide
    have hv : pyFloat ['1', '2', '.', '5'] = some (25 / 2) := by
      have ht : List.takeWhile (fun c => decide (c ≠ '.')) ['1', '2', '.', '5'] =
          ['1', '2'] := by decide
      have hd : List.drop 1 (List.dropWhile (fun c => decide (c ≠ '.')) ['1', '2', '.', '5']) =
          ['5'] := by decide
      have hdg : digitsToNat ['1', '2'] = 12 := by decide
      have hdg5 : digitsToNat ['5'] = 5 := by decide
      unfold pyFloat
      rw [if_pos (by decide)]
      simp only [ht, hd, hdg, hdg5]
      norm_num
    have he : timeField execLabel c7Content = some (25 / 2) := by
      rw [timeField, h1]
      exact hv
    have hp : timeField procTimeLabel c7Content = some 0 := by decide
    have ha : timeField analTimeLabel c7Content = some 0 := by decide
    have hs1 : sectionCount processesHeading c7Content = 3 := by decide
    have hs2 : sectionCount fileActHeading c7Content = 0 := by decide
    have hs3 : sectionCount regActHeading c7Content = 0 := by decide
    have hs4 : sectionCount netHeading c7Content = 0 := by decide
    have hh : hostsList c7Content = [] := by decide
    rw [parse_txt_report, he, hp, ha, hs1, hs2, hs3, hs4, hh]
  · intro content s hosts hparse
    have key : ∀ label : List Char, ¬ label <:+: content →
        timeField label content = some 0 := by
      intro label habs
      unfold timeField
      cases hsl : searchLabeledNum label content with
      | none => rfl
      | some run => exact absurd (searchLabeledNum_occurs label run content hsl) habs
    obtain ⟨he, hp2, ha2⟩ := parse_txt_report_timeFields content s hosts hparse
    refine ⟨fun habs => ?_, fun habs => ?_, fun habs => ?_⟩
    · exact Option.some.inj (he.symm.trans (key execLabel habs))
    · exact Option.some.inj (hp2.symm.trans (key procTimeLabel habs))
    · exact Option.some.inj (ha2.symm.trans (key analTimeLabel habs))

/-- Witness for C7 on a label-free text. -/
theorem c7_witness :
    (⟨0, 0, 0, 0, 0, 0, 0⟩ : TxtSummary).execution_time = 0 :=
  (c7_summary_roundtrip_and_defaults.2 "x".toList ⟨0, 0, 0, 0, 0, 0, 0⟩ []
    (by decide)).1 (by decide)

/-- The 7z common-password loop follows the spec's fallback stage whenever
no attempt raises. -/
theorem sevenZipLoop_policy (oracle : Option String → ARes)
    (h : ∀ t, oracle t ≠ ARes.exc) (l : List String) :
    (sevenZipLoop oracle l).1 = (spec_fallback (fun t => (oracle t).isOk) l).1 ∧
    (sevenZipLoop oracle l).2.map Invocation.password =
      (spec_fallback (fun t => (oracle t).isOk) l).2 := by
  induction l with
  | nil => exact ⟨rfl, rfl⟩
  | cons p rest ih =>
    cases hc : oracle (some p) with
    | ok => simp [sevenZipLoop, spec_fallback, hc, ARes.isOk]
    | exc => exact absurd hc (h (some p))
    | fail => simp [sevenZipLoop, spec_fallback, hc, ARes.isOk, ih.1, ih.2]

/-- The unzip common-password loop follows the spec's fallback stage
whenever no attempt raises. -/
theorem unzipLoop_policy (oracle : Option String → ARes)
    (h : ∀ t, oracle t ≠ ARes.exc) (l : List String) :
    (unzipLoop oracle l).1 = (spec_fallback (fun t => (oracle t).isOk) l).1 ∧
    (unzipLoop oracle l).2.map Invocation.password =
      (spec_fallback (fun t => (oracle t).isOk) l).2 := by
  induction l with
  | nil => exact ⟨rfl, rfl⟩
  | cons p rest ih =>
    cases hc : oracle (some p) with
    | ok => simp [unzipLoop, spec_fallback, hc, ARes.isOk]
    | exc => exact absurd hc (h (some p))
    | fail => simp [unzipLoop, spec_fallback, hc, ARes.isOk, ih.1, ih.2]

/-- The zipfile common-password loop follows the spec's fallback stage
whenever no attempt raises. -/
theorem pythonLoop_policy (oracle : Option String → ARes)
    (h : ∀ t, oracle t ≠ ARes.exc) (l : List String) :
    (pythonLoop oracle l).1 = (spec_fallback (fun t => (oracle t).isOk) l).1 ∧
    (pythonLoop oracle l).2.map Invocation.password =
      (spec_fallback (fun t => (oracle t).isOk) l).2 := by
  induction l with
  | nil => exact ⟨rfl, rfl⟩
  | cons p rest ih =>
    cases hc : oracle (some p) with
    | ok => simp [pythonLoop, spec_fallback, hc, ARes.isOk]
    | exc => exact absurd hc (h (some p))
    | fail => simp [pythonLoop, spec_fallback, hc, ARes.isOk, ih.1, ih.2]

/-- If no password of the list succeeds, the spec fallback stage fails. -/
theorem spec_fallback_all_fail (succeeds : Option String → Bool) (l : List String)
    (h : ∀ p ∈ l, succeeds (some p) = false) :
    (spec_fallback succeeds l).1 = false := by
  induction l with
  | nil => rfl
  | cons p rest ih =>
    have hp : succeeds (some p) = false := h p (List.mem_cons_self p rest)
    simp only [spec_fallback, hp, Bool.false_eq_true, if_false]
    exact ih (fun q hq => h q (List.mem_cons_of_mem p hq))

/-- The 7z backend implements the spec password policy (exception-free
oracles). -/
theorem extract_with_7z_policy (oracle : Option String → ARes)
    (h : ∀ t, oracle t ≠ ARes.exc) (password : Option String) :
    (extract_with_7z oracle password).1 =
      (spec_password_policy (fun t => (oracle t).isOk) password).1 ∧
    (extract_with_7z oracle password).2.map Invocation.password =
      (spec_password_policy (fun t => (oracle t).isOk) password).2 := by
  cases password with
  | some p =>
    cases hc : oracle (some p) with
    | ok => simp [extract_with_7z, spec_password_policy, hc, ARes.isOk]
    | exc => exact absurd hc (h (some p))
    | fail => simp [extract_with_7z, spec_password_policy, hc, ARes.isOk]
  | none =>
    cases hc : oracle none with
    | ok => simp [extract_with_7z, spec_password_policy, hc, ARes.isOk]
    | exc => exact absurd hc (h none)
    | fail =>
      have hl := sevenZipLoop_policy oracle h common_passwords
      simp [extract_with_7z, spec_password_policy, hc, ARes.isOk, hl.1, hl.2]

/-- The unzip backend implements the spec password policy (exception-free
oracles). -/
theorem extract_with_unzip_policy (oracle : Option String → ARes)
    (h : ∀ t, oracle t ≠ ARes.exc) (password : Option String) :
    (extract_with_unzip oracle password).1 =
      (spec_password_policy (fun t => (oracle t).isOk) password).1 ∧
    (extract_with_unzip oracle password).2.map Invocation.password =
      (spec_password_policy (fun t => (oracle t).isOk) password).2 := by
  cases password with
  | some p =>
    cases hc : oracle (some p) with
    | ok => simp [extract_with_unzip, spec_password_policy, hc, ARes.isOk]
    | exc => exact absurd hc (h (some p))
    | fail => simp [extract_with_unzip, spec_password_policy, hc, ARes.isOk]
  | none =>
    cases hc : oracle none with
    | ok => simp [extract_with_unzip, spec_password_policy, hc, ARes.isOk]
    | exc => exact absurd hc (h none)
    | fail =>
      have hl := unzipLoop_policy oracle h common_passwords
      simp [extract_with_unzip, spec_password_policy, hc, ARes.isOk, hl.1, hl.2]

/-- The zipfile backend implements the spec password policy (exception-free
oracles, archive opens). -/
theorem extract_with_python_policy (oracle : Option String → ARes)
    (h : ∀ t, oracle t ≠ ARes.exc) (password : Option String) :
    (extract_with_python oracle true password).1 =
      (spec_password_policy (fun t => (oracle t).isOk) password).1 ∧
    (extract_with_python oracle true password).2.map Invocation.password =
      (spec_password_policy (fun t => (oracle t).isOk) password).2 := by
  cases password with
  | some p =>
    cases hc : oracle (some p) with
    | ok => simp [extract_with_python, spec_password_policy, hc, ARes.isOk]
    | exc => exact absurd hc (h (some p))
    | fail => simp [extract_with_python, spec_password_policy, hc, ARes.isOk]
  | none =>
    cases hc : oracle none with
    | ok => simp [extract_with_python, spec_password_policy, hc, ARes.isOk]
    | exc => exact absurd hc (h none)
    | fail =>
      have hl := pythonLoop_policy oracle h common_passwords
      simp [extract_with_python, spec_password_policy, hc, ARes.isOk, hl.1, hl.2]

/-- C3: on any run in which no attempt raises, each of the three backends
realizes exactly the spec's password policy — a supplied password is the
only attempt; otherwise a no-password attempt is followed by the fixed list
`infected, malware, virus, password` in order, stopping at the first
success — so the attempt sequences of the three backends coincide; and an
archive whose real password is unsupplied and outside the list makes every
backend fail. -/
theorem c3_password_policy (oracle : Option String → ARes) (password : Option String)
    (h : ∀ t, oracle t ≠ ARes.exc) :
    ((extract_with_7z oracle password).1 =
        (spec_password_policy (fun t => (oracle t).isOk) password).1
      ∧ (extract_with_7z oracle password).2.map Invocation.password =
        (spec_password_policy (fun t => (oracle t).isOk) password).2)
  ∧ ((extract_with_unzip oracle password).1 =
        (spec_password_policy (fun t => (oracle t).isOk) password).1
      ∧ (extract_with_unzip oracle password).2.map Invocation.password =
        (spec_password_policy (fun t => (oracle t).isOk) password).2)
  ∧ ((extract_with_python oracle true password).1 =
        (spec_password_policy (fun t => (oracle t).isOk) password).1
      ∧ (extract_with_python oracle true password).2.map Invocation.password =
        (spec_password_policy (fun t => (oracle t).isOk) password).2)
  ∧ ∀ real : String, real ∉ common_passwords →
      (extract_with_7z (fun t => if t = some real then ARes.ok else ARes.fail) none).1 = false
    ∧ (extract_with_unzip (fun t => if t = some real then ARes.ok else ARes.fail) none).1 = false
    ∧ (extract_with_python (fun t => if t = some real then ARes.ok else ARes.fail)
        true none).1 = false := by
  refine ⟨extract_with_7z_policy oracle h password,
    extract_with_unzip_policy oracle h password,
    extract_with_python_policy oracle h password, ?_⟩
  intro real hreal
  have hno : ∀ t : Option String,
      (fun t => if t = some real then ARes.ok else ARes.fail) t ≠ ARes.exc := by
    intro t
    by_cases ht : t = some real <;> simp [ht]
  have hpol : (spec_password_policy
      (fun t => ((if t = some real then ARes.ok else ARes.fail)).isOk) none).1 = false := by
    have hfb := spec_fallback_all_fail
      (fun t => ((if t = some real then ARes.ok else ARes.fail)).isOk) common_passwords
      (by
        intro p hp
        have hne : some p ≠ some real := by
          intro hcontra
          exact hreal (by injection hcontra with hh; rw [hh] at hp; exact hp)
        simp [hne, ARes.isOk])
    simp only [spec_password_policy]
    rw [if_neg (by simp [ARes.isOk])]
    exact hfb
  refine ⟨?_, ?_, ?_⟩
  · rw [(extract_with_7z_policy _ hno none).1]
    exact hpol
  · rw [(extract_with_unzip_policy _ hno none).1]
    exact hpol
  · rw [(extract_with_python_policy _ hno none).1]
    exact hpol

/-- Witness for C3 with an all-fail oracle and a supplied password. -/
theorem c3_witness :
    (extract_with_7z (fun _ => ARes.fail) (some "x")).1 =
      (spec_password_policy (fun t => ((fun _ => ARes.fail) t).isOk) (some "x")).1 :=
  (c3_password_policy (fun _ => ARes.fail) (some "x")
    (fun _t h => ARes.noConfusion h)).1.1

/-- Every invocation the 7z loop makes carries the 30-unit bound. -/
theorem sevenZipLoop_timeout (oracle : Option String → ARes) (l : List String) :
    ∀ inv ∈ (sevenZipLoop oracle l).2, inv.timeoutSec = some 30 := by
  induction l with
  | nil => intro inv hinv; exact absurd hinv (by simp [sevenZipLoop])
  | cons p rest ih =>
    intro inv hinv
    cases hc : oracle (some p) <;> rw [sevenZipLoop, hc] at hinv
    · simp only [List.mem_singleton] at hinv
      rw [hinv]
    · simp only [List.mem_cons] at hinv
      cases hinv with
      | inl he => rw [he]
      | inr hm => exact ih inv hm
    · simp only [List.mem_singleton] at hinv
      rw [hinv]

/-- Every invocation the unzip loop makes carries the 30-unit bound. -/
theorem unzipLoop_timeout (oracle : Option String → ARes) (l : List String) :
    ∀ inv ∈ (unzipLoop oracle l).2, inv.timeoutSec = some 30 := by
  induction l with
  | nil => intro inv hinv; exact absurd hinv (by simp [unzipLoop])
  | cons p rest ih =>
    intro inv hinv
    cases hc : oracle (some p) <;> rw [unzipLoop, hc] at hinv
    · simp only [List.mem_singleton] at hinv
      rw [hinv]
    · simp only [List.mem_cons] at hinv
      cases hinv with
      | inl he => rw [he]
      | inr hm => exact ih inv hm
    · simp only [List.mem_singleton] at hinv
      rw [hinv]

/-- No invocation the zipfile loop makes carries any bound. -/
theorem pythonLoop_timeout (oracle : Option String → ARes) (l : List String) :
    ∀ inv ∈ (pythonLoop oracle l).2, inv.timeoutSec = none := by
  induction l with
  | nil => intro inv hinv; exact absurd hinv (by simp [pythonLoop])
  | cons p rest ih =>
    intro inv hinv
    cases hc : oracle (some p) <;> rw [pythonLoop, hc] at hinv
    · simp only [List.mem_singleton] at hinv
      rw [hinv]
    · simp only [List.mem_cons] at hinv
      cases hinv with
      | inl he => rw [he]
      | inr hm => exact ih inv hm
    · simp only [List.mem_singleton] at hinv
      rw [hinv]

/-- In the 7z loop an attempt that raises (in particular, one that exceeds
the 30-unit bound) is the last attempt, and the loop reports failure. -/
theorem sevenZipLoop_exc_last (oracle : Option String → ARes) (l : List String) :
    ∀ pre x post, (sevenZipLoop oracle l).2 = pre ++ x :: post →
      oracle x.password = ARes.exc →
      post = [] ∧ (sevenZipLoop oracle l).1 = false := by
  induction l with
  | nil =>
    intro pre x post h _
    exact absurd h (by simp [sevenZipLoop])
  | cons p rest ih =>
    intro pre x post h hx
    cases hc : oracle (some p) <;> rw [sevenZipLoop, hc] at h ⊢
    · cases pre with
      | nil =>
        simp only [List.nil_append, List.cons.injEq] at h
        rw [← h.1] at hx
        exact absurd hx (by rw [hc]; decide)
      | cons a pre' =>
        simp only [List.cons_append, List.cons.injEq] at h
        exact absurd h.2.symm (by simp)
    · cases pre with
      | nil =>
        simp only [List.nil_append, List.cons.injEq] at h
        rw [← h.1] at hx
        exact absurd hx (by rw [hc]; decide)
      | cons a pre' =>
        simp only [List.cons_append, List.cons.injEq] at h
        exact ih pre' x post h.2 hx
    · cases pre with
      | nil =>
        simp only [List.nil_append, List.cons.injEq] at h
        exact ⟨h.2.symm, by trivial⟩
      | cons a pre' =>
        simp only [List.cons_append, List.cons.injEq] at h
        exact absurd h.2.symm (by simp)

/-- In the unzip loop an attempt that raises is the last attempt, and the
loop reports failure. -/
theorem unzipLoop_exc_last (oracle : Option String → ARes) (l : List String) :
    ∀ pre x post, (unzipLoop oracle l).2 = pre ++ x :: post →
      oracle x.password = ARes.exc →
      post = [] ∧ (unzipLoop oracle l).1 = false := by
  induction l with
  | nil =>
    intro pre x post h _
    exact absurd h (by simp [unzipLoop])
  | cons p rest ih =>
    intro pre x post h hx
    cases hc : oracle (some p) <;> rw [unzipLoop, hc] at h ⊢
    · cases pre with
      | nil =>
        simp only [List.nil_append, List.cons.injEq] at h
        rw [← h.1] at hx
        exact absurd hx (by rw [hc]; decide)
      | cons a pre' =>
        simp only [List.cons_append, List.cons.injEq] at h
        exact absurd h.2.symm (by simp)
    · cases pre with
      | nil =>
        simp only [List.nil_append, List.cons.injEq] at h
        rw [← h.1] at hx
        exact absurd hx (by rw [hc]; decide)
      | cons a pre' =>
        simp only [List.cons_append, List.cons.injEq] at h
        exact ih pre' x post h.2 hx
    · cases pre with
      | nil =>
        simp only [List.nil_append, List.cons.injEq] at h
        exact ⟨h.2.symm, by trivial⟩
      | cons a pre' =>
        simp only [List.cons_append, List.cons.injEq] at h
        exact absurd h.2.symm (by simp)

/-- In the 7z backend an attempt that raises is the last attempt made, and
the backend reports failure. -/
theorem extract_with_7z_exc_last (oracle : Option String → ARes) (password : Option String) :
    ∀ pre x post, (extract_with_7z oracle password).2 = pre ++ x :: post →
      oracle x.password = ARes.exc →
      post = [] ∧ (extract_with_7z oracle password).1 = false := by
  intro pre x post h hx
  cases password with
  | some p =>
    cases hc : oracle (some p) <;> simp only [extract_with_7z, hc] at h ⊢
    · cases pre with
      | nil =>
        simp only [List.nil_append, List.cons.injEq] at h
        rw [← h.1] at hx
        exact absurd hx (by rw [hc]; decide)
      | cons a pre' =>
        simp only [List.cons_append, List.cons.injEq] at h
        exact absurd h.2.symm (by simp)
    · cases pre with
      | nil =>
        simp only [List.nil_append, List.cons.injEq] at h
        exact ⟨h.2.symm, by trivial⟩
      | cons a pre' =>
        simp only [List.cons_append, List.cons.injEq] at h
        exact absurd h.2.symm (by simp)
    · cases pre with
      | nil =>
        simp only [List.nil_append, List.cons.injEq] at h
        exact ⟨h.2.symm, by trivial⟩
      | cons a pre' =>
        simp only [List.cons_append, List.cons.injEq] at h
        exact absurd h.2.symm (by simp)
  | none =>
    cases hc : oracle none <;> simp only [extract_with_7z, hc] at h ⊢
    · cases pre with
      | nil =>
        simp only [List.nil_append, List.cons.injEq] at h
        rw [← h.1] at hx
        exact absurd hx (by rw [hc]; decide)
      | cons a pre' =>
        simp only [List.cons_append, List.cons.injEq] at h
        exact absurd h.2.symm (by simp)
    · cases pre with
      | nil =>
        simp only [List.nil_append, List.cons.injEq] at h
        rw [← h.1] at hx
        exact absurd hx (by rw [hc]; decide)
      | cons a pre' =>
        simp only [List.cons_append, List.cons.injEq] at h
        exact sevenZipLoop_exc_last oracle common_passwords pre' x post h.2 hx
    · cases pre with
      | nil =>
        simp only [List.nil_append, List.cons.injEq] at h
        exact ⟨h.2.symm, by trivial⟩
      | cons a pre' =>
        simp only [List.cons_append, List.cons.injEq] at h
        exact absurd h.2.symm (by simp)

/-- In the unzip backend an attempt that raises is the last attempt made,
and the backend reports failure. -/
theorem extract_with_unzip_exc_last (oracle : Option String → ARes) (password : Option String) :
    ∀ pre x post, (extract_with_unzip oracle password).2 = pre ++ x :: post →
      oracle x.password = ARes.exc →
      post = [] ∧ (extract_with_unzip oracle password).1 = false := by
  intro pre x post h hx
  cases password with
  | some p =>
    cases hc : oracle (some p) <;> simp only [extract_with_unzip, hc] at h ⊢
    · cases pre with
      | nil =>
        simp only [List.nil_append, List.cons.injEq] at h
        rw [← h.1] at hx
        exact absurd hx (by rw [hc]; decide)
      | cons a pre' =>
        simp only [List.cons_append, List.cons.injEq] at h
        exact absurd h.2.symm (by simp)
    · cases pre with
      | nil =>
        simp only [List.nil_append, List.cons.injEq] at h
        exact ⟨h.2.symm, by trivial⟩
      | cons a pre' =>
        simp only [List.cons_append, List.cons.injEq] at h
        exact absurd h.2.symm (by simp)
    · cases pre with
      | nil =>
        simp only [List.nil_append, List.cons.injEq] at h
        exact ⟨h.2.symm, by trivial⟩
      | cons a pre' =>
        simp only [List.cons_append, List.cons.injEq] at h
        exact absurd h.2.symm (by simp)
  | none =>
    cases hc : oracle none <;> simp only [extract_with_unzip, hc] at h ⊢
    · cases pre with
      | nil =>
        simp only [List.nil_append, List.cons.injEq] at h
        rw [← h.1] at hx
        exact absurd hx (by rw [hc]; decide)
      | cons a pre' =>
        simp only [List.cons_append, List.cons.injEq] at h
        exact absurd h.2.symm (by simp)
    · cases pre with
      | nil =>
        simp only [List.nil_append, List.cons.injEq] at h
        rw [← h.1] at hx
        exact absurd hx (by rw [hc]; decide)
      | cons a pre' =>
        simp only [List.cons_append, List.cons.injEq] at h
        exact unzipLoop_exc_last oracle common_passwords pre' x post h.2 hx
    · cases pre with
      | nil =>
        simp only [List.nil_append, List.cons.injEq] at h
        exact ⟨h.2.symm, by trivial⟩
      | cons a pre' =>
        simp only [List.cons_append, List.cons.injEq] at h
        exact absurd h.2.symm (by simp)

/-- C8 counterexample: the in-process zipfile backend makes its attempts
with no timeout at all — on a concrete all-fail run its five invocations
(no password, then the four fallback passwords) all carry no bound, and
`none` is not the claimed 30-unit bound. -/
theorem c8_counterexample_python_unbounded :
    (extract_with_python (fun _ => ARes.fail) true none).2.map Invocation.timeoutSec =
      [none, none, none, none, none]
  ∧ (none : Option Nat) ≠ some 30 := by decide

/-- C8 (amended): every invocation of the two external-tool backends (7z,
unzip) is bounded by the fixed 30-time-unit subprocess timeout, and an
attempt that raises there — in particular one that exceeds that bound — is
the backend's last attempt and makes the backend fail (no retry within the
backend); the in-process zipfile backend, by contrast, runs its attempts
with no timeout bound at all. -/
theorem c8_amended_timeout_bounds (oracle : Option String → ARes) (password : Option String) :
    (∀ inv ∈ (extract_with_7z oracle password).2, inv.timeoutSec = some 30)
  ∧ (∀ inv ∈ (extract_with_unzip oracle password).2, inv.timeoutSec = some 30)
  ∧ (∀ openOk : Bool, ∀ inv ∈ (extract_with_python oracle openOk password).2,
      inv.timeoutSec = none)
  ∧ (∀ pre x post, (extract_with_7z oracle password).2 = pre ++ x :: post →
      oracle x.password = ARes.exc →
      post = [] ∧ (extract_with_7z oracle password).1 = false)
  ∧ (∀ pre x post, (extract_with_unzip oracle password).2 = pre ++ x :: post →
      oracle x.password = ARes.exc →
      post = [] ∧ (extract_with_unzip oracle password).1 = false) := by
  refine ⟨?_, ?_, ?_, extract_with_7z_exc_last oracle password,
    extract_with_unzip_exc_last oracle password⟩
  · intro inv hinv
    cases password with
    | some p =>
      cases hc : oracle (some p) <;> simp only [extract_with_7z, hc] at hinv <;>
        simp only [List.mem_singleton] at hinv <;> rw [hinv]
    | none =>
      cases hc : oracle none <;> simp only [extract_with_7z, hc] at hinv
      · simp only [List.mem_singleton] at hinv
        rw [hinv]
      · simp only [List.mem_cons] at hinv
        cases hinv with
        | inl he => rw [he]
        | inr hm => exact sevenZipLoop_timeout oracle common_passwords inv hm
      · simp only [List.mem_singleton] at hinv
        rw [hinv]
  · intro inv hinv
    cases password with
    | some p =>
      cases hc : oracle (some p) <;> simp only [extract_with_unzip, hc] at hinv <;>
        simp only [List.mem_singleton] at hinv <;> rw [hinv]
    | none =>
      cases hc : oracle none <;> simp only [extract_with_unzip, hc] at hinv
      · simp only [List.mem_singleton] at hinv
        rw [hinv]
      · simp only [List.mem_cons] at hinv
        cases hinv with
        | inl he => rw [he]
        | inr hm => exact unzipLoop_timeout oracle common_passwords inv hm
      · simp only [List.mem_singleton] at hinv
        rw [hinv]
  · intro openOk inv hinv
    cases openOk with
    | false => exact absurd hinv (by simp [extract_with_python])
    | true =>
      cases password with
      | some p =>
        cases hc : oracle (some p) <;> simp [extract_with_python, hc] at hinv <;> rw [hinv]
      | none =>
        cases hc : oracle none <;> simp [extract_with_python, hc] at hinv
        · rw [hinv]
        · cases hinv with
          | inl he => rw [he]
          | inr hm => exact pythonLoop_timeout oracle common_passwords inv hm
        · rw [hinv]

/-- Witness for C8 (amended): an attempt that raises on the first try ends
the 7z backend immediately with failure. -/
theorem c8_witness :
    ([] : List Invocation) = [] ∧
      (extract_with_7z (fun _ => ARes.exc) none).1 = false :=
  (c8_amended_timeout_bounds (fun _ => ARes.exc) none).2.2.2.1
    [] ⟨none, some 30⟩ [] (by decide) (by decide)

/-- A successful first-match index points at an extension the name
matches. -/
theorem firstMatchIdx_spec (name : String) (l : List String) :
    ∀ j, firstMatchIdx name l = some j →
      ∃ ext, l[j]? = some ext ∧ strEndsWith name ext = true := by
  induction l with
  | nil => intro j h; exact absurd h (by simp [firstMatchIdx])
  | cons e rest ih =>
    intro j h
    by_cases he : strEndsWith name e
    · rw [firstMatchIdx, if_pos he] at h
      injection h with h
      exact ⟨e, by rw [← h]; exact List.getElem?_cons_zero, he⟩
    · rw [firstMatchIdx, if_neg he] at h
      cases hr : firstMatchIdx name rest with
      | none => rw [hr] at h; exact absurd h (by simp)
      | some k =>
        rw [hr] at h
        simp only [Option.map_some'] at h
        injection h with h
        obtain ⟨ext, hget, hm⟩ := ih k hr
        refine ⟨ext, ?_, hm⟩
        rw [← h, List.getElem?_cons_succ]
        exact hget

/-- The first-match index is minimal among all matches. -/
theorem firstMatchIdx_min (name : String) (l : List String) :
    ∀ j ext, l[j]? = some ext → strEndsWith name ext = true →
      ∃ i, i ≤ j ∧ firstMatchIdx name l = some i := by
  induction l with
  | nil => intro j ext hget _; simp at hget
  | cons e rest ih =>
    intro j ext hget hm
    by_cases he : strEndsWith name e
    · exact ⟨0, Nat.zero_le j, by rw [firstMatchIdx, if_pos he]⟩
    · cases j with
      | zero =>
        rw [List.getElem?_cons_zero] at hget
        injection hget with hget
        rw [hget] at he
        exact absurd hm he
      | succ k =>
        rw [List.getElem?_cons_succ] at hget
        obtain ⟨i, hik, hfi⟩ := ih k ext hget hm
        exact ⟨i + 1, by omega, by rw [firstMatchIdx, if_neg he, hfi]; rfl⟩

/-- Reconstruction of the first-match index from a match at `i` with no
match strictly before it. -/
theorem firstMatchIdx_build (name : String) (l : List String) :
    ∀ i ext, l[i]? = some ext → strEndsWith name ext = true →
      (∀ j extj, j < i → l[j]? = some extj → strEndsWith name extj = false) →
      firstMatchIdx name l = some i := by
  induction l with
  | nil => intro i ext hget _ _; simp at hget
  | cons e rest ih =>
    intro i ext hget hm hmin
    cases i with
    | zero =>
      rw [List.getElem?_cons_zero] at hget
      injection hget with hget
      rw [firstMatchIdx, if_pos (by rw [← hget] at hm; exact hm)]
    | succ k =>
      have he : strEndsWith name e = false :=
        hmin 0 e (Nat.succ_pos k) List.getElem?_cons_zero
      rw [List.getElem?_cons_succ] at hget
      have hrest : firstMatchIdx name rest = some k := by
        apply ih k ext hget hm
        intro j extj hj hgetj
        exact hmin (j + 1) extj (by omega) (by rw [List.getElem?_cons_succ]; exact hgetj)
      rw [firstMatchIdx, if_neg (by simp [he]), hrest]
      rfl

/-- A `none` first-match index means no extension of the list matches. -/
theorem firstMatchIdx_eq_none (name : String) (l : List String) :
    firstMatchIdx name l = none → ∀ ext ∈ l, strEndsWith name ext = false := by
  induction l with
  | nil => intro _ ext hext; simp at hext
  | cons e rest ih =>
    intro h ext hext
    by_cases he : strEndsWith name e
    · rw [firstMatchIdx, if_pos he] at h
      exact absurd h (by simp)
    · rw [firstMatchIdx, if_neg he] at h
      have hr : firstMatchIdx name rest = none := by
        cases hr : firstMatchIdx name rest with
        | none => rfl
        | some k => rw [hr] at h; exact absurd h (by simp)
      rcases List.mem_cons.mp hext with hee | hm
      · rw [hee]
        simpa using he
      · exact ih hr ext hm

/-- The head of the glob concatenation matches some extension, belongs to
the listing, and no listed file matches any strictly earlier extension. -/
theorem findExecutables_head (listing : List Entry) :
    ∀ exts' : List String, ∀ e t,
      (exts'.map (fun ext => globTopLevel listing ext ++ globRecursive listing ext)).flatten
        = e :: t →
      ∃ (i : Nat) (ext : String),
        exts'[i]? = some ext ∧ strEndsWith e.name ext = true ∧ e ∈ listing ∧
        ∀ j extj, j < i → exts'[j]? = some extj →
          ∀ f ∈ listing, strEndsWith f.name extj = false := by
  intro exts'
  induction exts' with
  | nil => intro e t h; simp at h
  | cons ext0 rest ih =>
    intro e t h
    simp only [List.map_cons, List.flatten_cons] at h
    cases hg : globTopLevel listing ext0 ++ globRecursive listing ext0 with
    | nil =>
      rw [hg, List.nil_append] at h
      obtain ⟨i, ext, hget, hm, hmem, hmin⟩ := ih e t h
      have hrec : ∀ f ∈ listing, strEndsWith f.name ext0 = false := by
        have hnil : globRecursive listing ext0 = [] := (List.append_eq_nil.mp hg).2
        intro f hf
        have := List.filter_eq_nil_iff.mp hnil f hf
        simpa using this
      refine ⟨i + 1, ext, by rw [List.getElem?_cons_succ]; exact hget, hm, hmem, ?_⟩
      intro j extj hj hgetj f hf
      cases j with
      | zero =>
        rw [List.getElem?_cons_zero] at hgetj
        injection hgetj with hgetj
        rw [← hgetj]
        exact hrec f hf
      | succ k =>
        rw [List.getElem?_cons_succ] at hgetj
        exact hmin k extj (by omega) hgetj f hf
    | cons f0 g0t =>
      rw [hg, List.cons_append] at h
      simp only [List.cons.injEq] at h
      obtain ⟨he, -⟩ := h
      have hf0 : f0 ∈ globTopLevel listing ext0 ++ globRecursive listing ext0 := by
        rw [hg]
        exact List.mem_cons_self f0 g0t
      have hfm : f0 ∈ listing ∧ strEndsWith f0.name ext0 = true := by
        rcases List.mem_append.mp hf0 with hmm | hmm
        · have hmf := List.mem_filter.mp hmm
          have hpred := hmf.2
          rw [Bool.and_eq_true] at hpred
          exact ⟨hmf.1, hpred.2⟩
        · have hmf := List.mem_filter.mp hmm
          exact ⟨hmf.1, hmf.2⟩
      refine ⟨0, ext0, List.getElem?_cons_zero, he ▸ hfm.2, he ▸ hfm.1, ?_⟩
      intro j extj hj
      exact absurd hj (Nat.not_lt_zero j)

/-- C4: when extraction succeeded, a found sample is a listed file whose
extension has the minimal priority rank among all listed files — filesystem
enumeration order cannot make a lower-priority file win — and when no
listed file matches any extension, the outcome is the distinct
`noExecutable` failure. -/
theorem c4_executable_priority (listing : List Entry) :
    (∀ e, extract_zip_select true listing = ExtractOutcome.found e →
      e ∈ listing ∧ ∃ i, priorityIdx e.name = some i ∧
        ∀ f ∈ listing, ∀ j, priorityIdx f.name = some j → i ≤ j)
  ∧ ((∀ f ∈ listing, priorityIdx f.name = none) →
      extract_zip_select true listing = ExtractOutcome.noExecutable) := by
  constructor
  · intro e hfound
    unfold extract_zip_select at hfound
    rw [if_neg (by decide)] at hfound
    cases hfe : findExecutables listing with
    | nil => rw [hfe] at hfound; exact ExtractOutcome.noConfusion hfound
    | cons e0 t =>
      rw [hfe] at hfound
      have he0 : e0 = e := by
        simpa using hfound
      subst he0
      unfold findExecutables at hfe
      obtain ⟨i, ext, hget, hm, hmem, hmin⟩ :=
        findExecutables_head listing extractExtensions e0 t hfe
      refine ⟨hmem, i, ?_, ?_⟩
      · exact firstMatchIdx_build e0.name extractExtensions i ext hget hm
          (fun j extj hj hgetj => hmin j extj hj hgetj e0 hmem)
      · intro f hf j hpj
        obtain ⟨extj, hgetj, hmj⟩ := firstMatchIdx_spec f.name extractExtensions j hpj
        by_contra hij
        push_neg at hij
        have hfalse := hmin j extj hij hgetj f hf
        rw [hfalse] at hmj
        exact absurd hmj (by decide)
  · intro hnone
    have hall : ∀ f ∈ listing, ∀ ext ∈ extractExtensions, strEndsWith f.name ext = false :=
      fun f hf => firstMatchIdx_eq_none f.name extractExtensions (hnone f hf)
    have hfe : findExecutables listing = [] := by
      unfold findExecutables
      rw [List.flatten_eq_nil_iff]
      intro g hg
      simp only [List.mem_map] at hg
      obtain ⟨ext, hext, rfl⟩ := hg
      have h1 : globTopLevel listing ext = [] := by
        unfold globTopLevel
        rw [List.filter_eq_nil_iff]
        intro f hf
        simp [hall f hf ext hext]
      have h2 : globRecursive listing ext = [] := by
        unfold globRecursive
        rw [List.filter_eq_nil_iff]
        intro f hf
        simp [hall f hf ext hext]
      rw [h1, h2]
      rfl
    unfold extract_zip_select
    rw [if_neg (by decide), hfe]

/-- Witness for C4: a directory with no executable-like file yields the
distinct no-executable outcome. -/
theorem c4_witness :
    extract_zip_select true [⟨[], "readme.txt"⟩] = ExtractOutcome.noExecutable :=
  (c4_executable_priority [⟨[], "readme.txt"⟩]).2 (by decide)

/-- C1: the cleanup of `run_noriben` runs on every branch of the body —
whatever the subprocess and parser did, the sample file and the
`{analysis_id}_extracted` directory are gone afterwards whenever their
removal does not itself raise — and the primary outcome never depends on
the cleanup flags: two environments that agree on subprocess and parser
behavior produce the same outcome no matter how cleanup fares. -/
theorem c1_run_noriben_guaranteed_cleanup (ρ : Type) (cfg : AgentConfig) (st : FsState)
    (env env' : RunEnv ρ) (samplePath analysisId : String)
    (hp : env'.runProc = env.runProc) (hpo : env'.parseOutput = env.parseOutput) :
    (env.removeSampleFails = false →
        (run_noriben ρ cfg st env samplePath analysisId).2.sampleExists = false)
  ∧ (env.rmExtractFails = false →
        (run_noriben ρ cfg st env samplePath analysisId).2.extractDirExists = false)
  ∧ (run_noriben ρ cfg st env' samplePath analysisId).1 =
        (run_noriben ρ cfg st env samplePath analysisId).1 := by
  refine ⟨fun h => ?_, fun h => ?_, ?_⟩
  · simp [run_noriben, run_cleanup, h]
  · simp [run_noriben, run_cleanup, h]
  · show run_noriben_body ρ cfg st env'.runProc env'.parseOutput samplePath analysisId =
      run_noriben_body ρ cfg st env.runProc env.parseOutput samplePath analysisId
    rw [hp, hpo]

/-- Witness for C1 on a timing-out run with working cleanup. -/
theorem c1_witness :
    ((run_noriben Bool ⟨300, "agent_work"⟩ ⟨true, true⟩
        ⟨fun _ => ProcResult.timedOut, none, false, false⟩ "s.exe" "a1").2.sampleExists = false)
  ∧ ((run_noriben Bool ⟨300, "agent_work"⟩ ⟨true, true⟩
        ⟨fun _ => ProcResult.timedOut, none, false, false⟩ "s.exe" "a1").2.extractDirExists
        = false) :=
  ⟨(c1_run_noriben_guaranteed_cleanup Bool ⟨300, "agent_work"⟩ ⟨true, true⟩
      ⟨fun _ => ProcResult.timedOut, none, false, false⟩
      ⟨fun _ => ProcResult.timedOut, none, false, false⟩ "s.exe" "a1" rfl rfl).1 rfl,
   (c1_run_noriben_guaranteed_cleanup Bool ⟨300, "agent_work"⟩ ⟨true, true⟩
      ⟨fun _ => ProcResult.timedOut, none, false, false⟩
      ⟨fun _ => ProcResult.timedOut, none, false, false⟩ "s.exe" "a1" rfl rfl).2.1 rfl⟩

/-- C2: the subprocess bound handed to `subprocess.run` is
`ANALYSIS_TIMEOUT + 60`; when the monitoring subprocess exceeds it the run
returns the failure `"Analysis timeout"`, and the sample file is still
removed by the cleanup afterwards. -/
theorem c2_timeout_outcome (ρ : Type) (cfg : AgentConfig) (st : FsState) (env : RunEnv ρ)
    (samplePath analysisId : String)
    (hT : env.runProc (noriben_cmd cfg samplePath (output_dir_path cfg analysisId)) =
      ProcResult.timedOut)
    (hs : st.sampleExists = true) (hc : env.removeSampleFails = false) :
    (noriben_cmd cfg samplePath (output_dir_path cfg analysisId)).subprocessTimeout =
      cfg.analysisTimeout + 60
  ∧ (run_noriben ρ cfg st env samplePath analysisId).1 = RunOutcome.err "Analysis timeout"
  ∧ (run_noriben ρ cfg st env samplePath analysisId).2.sampleExists = false := by
  refine ⟨rfl, ?_, ?_⟩
  · show run_noriben_body ρ cfg st env.runProc env.parseOutput samplePath analysisId = _
    unfold run_noriben_body
    rw [if_neg (by rw [hs]; decide), hT]
  · simp [run_noriben, run_cleanup, hc]

/-- Witness for C2 on a concrete timing-out environment. -/
theorem c2_witness :
    (noriben_cmd ⟨300, "agent_work"⟩ "s.exe"
        (output_dir_path ⟨300, "agent_work"⟩ "a1")).subprocessTimeout = 360
  ∧ (run_noriben Bool ⟨300, "agent_work"⟩ ⟨true, false⟩
      ⟨fun _ => ProcResult.timedOut, none, false, false⟩ "s.exe" "a1").1 =
      RunOutcome.err "Analysis timeout"
  ∧ (run_noriben Bool ⟨300, "agent_work"⟩ ⟨true, false⟩
      ⟨fun _ => ProcResult.timedOut, none, false, false⟩ "s.exe" "a1").2.sampleExists
      = false :=
  c2_timeout_outcome Bool ⟨300, "agent_work"⟩ ⟨true, false⟩
    ⟨fun _ => ProcResult.timedOut, none, false, false⟩ "s.exe" "a1" rfl rfl rfl

/-- Cleanup on an absent directory is the identity and reports success. -/
theorem cleanup_absent (env : CleanupEnv) (dirs : List String) (analysisId : String)
    (h : analysisId ∉ dirs) :
    cleanup env dirs analysisId = (⟨true, none⟩, dirs) := by
  unfold cleanup
  rw [if_neg h]

/-- C9: the cleanup endpoint removes the analysis id's output directory
when present (and `rmtree` works), returns success when the directory is
absent, and a second consecutive invocation for the same id — whatever its
environment — still returns success. -/
theorem c9_cleanup_idempotent (env env' : CleanupEnv) (dirs : List String)
    (analysisId : String) :
    (env.rmtreeFails = false → analysisId ∈ dirs →
        (cleanup env dirs analysisId).1.success = true ∧
        analysisId ∉ (cleanup env dirs analysisId).2)
  ∧ (analysisId ∉ dirs → cleanup env dirs analysisId = (⟨true, none⟩, dirs))
  ∧ (env.rmtreeFails = false →
        (cleanup env' (cleanup env dirs analysisId).2 analysisId).1.success = true) := by
  have habsent : ∀ (e : CleanupEnv) (ds : List String), analysisId ∉ ds →
      cleanup e ds analysisId = (⟨true, none⟩, ds) := fun e ds h => cleanup_absent e ds _ h
  refine ⟨fun hf hm => ?_, habsent env dirs, fun hf => ?_⟩
  · unfold cleanup
    rw [if_pos hm, if_neg (by rw [hf]; decide)]
    exact ⟨rfl, by simp [List.mem_filter]⟩
  · have h2 : analysisId ∉ (cleanup env dirs analysisId).2 := by
      by_cases hm : analysisId ∈ dirs
      · unfold cleanup
        rw [if_pos hm, if_neg (by rw [hf]; decide)]
        simp [List.mem_filter]
      · rw [habsent env dirs hm]
        exact hm
    rw [habsent env' _ h2]

/-- Witness for C9: removing an existing directory succeeds and a second
call still succeeds. -/
theorem c9_witness :
    ((cleanup ⟨false⟩ ["a1", "b2"] "a1").1.success = true ∧
      "a1" ∉ (cleanup ⟨false⟩ ["a1", "b2"] "a1").2)
  ∧ (cleanup ⟨true⟩ (cleanup ⟨false⟩ ["a1", "b2"] "a1").2 "a1").1.success = true :=
  ⟨(c9_cleanup_idempotent ⟨false⟩ ⟨true⟩ ["a1", "b2"] "a1").1 rfl (by decide),
   (c9_cleanup_idempotent ⟨false⟩ ⟨true⟩ ["a1", "b2"] "a1").2.2 rfl⟩
